import Mathlib

/-!
Verification of the DataLens CSV-analysis page (src/app/page.tsx) and its
near-duplicate variant (src/unnamed/part_000).

The embedding models the two pure data-transformation contracts of the page:

* `parseCSV` — CSV ingestion (src/app/page.tsx lines 76–95);
* `normalize` — the analysis-result normalizer, the pure core of
  `analyzeData` (src/app/page.tsx lines 167–187), together with the
  surrounding control flow (`analyzeStep`).

JavaScript host primitives are modelled explicitly:

* JS trim — `jsTrim`, removing leading/trailing whitespace characters
  (the ASCII whitespace relevant to this code);
* JS split for a one-character separator — `jsSplit`; like the JS
  original it never returns an empty array and maps the empty string to a
  singleton list holding the empty string;
* JS string length — `String.length` on the Lean side (code points rather
  than UTF-16 units; they agree on all text without astral-plane
  characters);
* JS object property assignment and lookup — `objSet` and `objGet` over an
  association list with at most one binding per key, assignment replacing
  an existing binding in place;
* JS numbers — modelled as `Rat`; every number actually manipulated here
  (`completenessScore / 100`, `size / 1024` with size below `2^53`) is
  handled exactly by IEEE doubles except for the final decimal rounding of
  `toFixed`, which `jsToFixed2KB` reproduces (round half away from zero,
  as ECMA-262 specifies for `toFixed`);
* JSON.parse — an abstract decoder parameter `decode : String → Option
  Payload`, with `none` standing for a thrown SyntaxError.
-/

namespace DataLens

/-- Whitespace recognised by JS trim on the ASCII range. -/
def jsIsSpace (c : Char) : Bool :=
  c == ' ' || c == '\t' || c == '\n' || c == '\r' || c == '\x0b' || c == '\x0c'

/-- Model of JS trim on the character list. -/
def jsTrimList (l : List Char) : List Char :=
  ((l.dropWhile jsIsSpace).reverse.dropWhile jsIsSpace).reverse

/-- Model of `text.trim()`. -/
def jsTrim (s : String) : String :=
  (jsTrimList s.data).asString

/-- Model of JS split for a single-character separator, on the character
list.  `splitOnChar sep [] = [[]]`, matching the JS behaviour on the
empty string; the result is never the empty list. -/
def splitOnChar (sep : Char) : List Char → List (List Char)
  | [] => [[]]
  | c :: cs =>
    if c = sep then [] :: splitOnChar sep cs
    else
      match splitOnChar sep cs with
      | [] => [[c]]
      | h :: t => (c :: h) :: t

/-- Model of `s.split(sep)` for a single-character separator. -/
def jsSplit (sep : Char) (s : String) : List String :=
  (splitOnChar sep s.data).map List.asString

/-- JS object property assignment `obj[k] = v`: replaces an existing
binding in place, otherwise appends the new binding. -/
def objSet : List (String × String) → String → String → List (String × String)
  | [], k, v => [(k, v)]
  | p :: rest, k, v => if p.1 = k then (k, v) :: rest else p :: objSet rest k v

/-- JS object property lookup `obj[k]`, with `none` for undefined. -/
def objGet (obj : List (String × String)) (k : String) : Option String :=
  (obj.find? (fun p => p.1 == k)).map Prod.snd

/-- The reduce loop of `parseCSV` (lines 81–84) building one row object,
with the running index made explicit.  `values.getD idx ""` captures the
JS expression `values[idx] || ...` there: a missing index gives undefined,
which the or-default coerces to the empty string, and an empty cell stays
the empty string. -/
def buildRowAux (obj : List (String × String)) :
    List String → List String → Nat → List (String × String)
  | [], _, _ => obj
  | h :: hs, values, idx => buildRowAux (objSet obj h (values.getD idx "")) hs values (idx + 1)

/-- Row mapping built from the header list and the (already trimmed) cell
values of one data line. -/
def buildRow (headers values : List String) : List (String × String) :=
  buildRowAux [] headers values 0

/-- Comma split with per-cell trim — used for the header line and for
every data line of `parseCSV`. -/
def splitComma (line : String) : List String :=
  (jsSplit ',' line).map jsTrim

/-- One data line to row mapping, given the headers. -/
def parseLine (headers : List String) (line : String) : List (String × String) :=
  buildRow headers (splitComma line)

/-- The line list `parseCSV` works on: the whole text is trimmed first,
then split on newline (line 77). -/
def linesOf (text : String) : List String :=
  jsSplit '\n' (jsTrim text)

/-- The FileData interface of page.tsx. -/
structure FileData where
  name : String
  size : Nat
  rows : Nat
  columns : Nat
  headers : List String
  preview : List (List (String × String))
  deriving Repr, DecidableEq

/-- Embedding of `parseCSV` (src/app/page.tsx lines 76–95). -/
def parseCSV (text fileName : String) : FileData :=
  let lines := linesOf text
  let headers := splitComma (lines.getD 0 "")
  let data := (lines.drop 1).map (parseLine headers)
  { name := fileName
    size := text.length
    rows := data.length
    columns := headers.length
    headers := headers
    preview := data.take 10 }

/-- Embedding of `parseCSV` with the one fallible step made explicit: the
header access reads index 0 of the split result, which is undefined
exactly when split returns an empty array, and the member access on
undefined would throw into the surrounding catch branch (modelled as
`none`). -/
def parseCSVChecked (text fileName : String) : Option FileData :=
  let lines := linesOf text
  match lines.head? with
  | none => none
  | some first =>
    let headers := splitComma first
    let data := (lines.drop 1).map (parseLine headers)
    some
      { name := fileName
        size := text.length
        rows := data.length
        columns := headers.length
        headers := headers
        preview := data.take 10 }

/-- Last index at which `k` occurs in a list (used to characterise the
collision behaviour of `buildRow` on duplicate headers). -/
def lastIdxOf (k : String) : List String → Option Nat
  | [] => none
  | h :: hs =>
    match lastIdxOf k hs with
    | some j => some (j + 1)
    | none => if h = k then some 0 else none

/-- Join lines with single newlines, as in a text made of a header line
followed by data lines. -/
def joinLines : List String → String
  | [] => ""
  | [l] => l
  | l :: ls => l ++ "\n" ++ joinLines ls

/-!
The analysis-result normalizer (`analyzeData`, lines 167–187).

The external payload, `parsedData`, is modelled as the typed shape the
normalizer reads, every section optional (`none` stands for a section that
is absent or JS-falsy, in which case the or-default picks the default).
`summary` also carries optional totalRows/totalColumns fields: the external
service may send them, and the code never reads them.
-/

/-- Payload summary section. -/
structure PayloadSummary where
  totalRows : Option Rat
  totalColumns : Option Rat
  completenessScore : Option Rat
  deriving Repr, DecidableEq

/-- A statistic value: numeric or textual. -/
inductive StatValue where
  | num (q : Rat)
  | str (s : String)
  deriving Repr, DecidableEq

/-- Data-quality section of the payload and the result. -/
structure DataQuality where
  missingValues : List (String × Nat)
  duplicateRows : Nat
  dataTypeIssues : List String
  deriving Repr, DecidableEq

/-- One entry of the correlations sequence. -/
structure Correlation where
  column1 : String
  column2 : String
  correlation : Rat
  deriving Repr, DecidableEq

/-- Patterns section of the payload and the result. -/
structure Patterns where
  trends : List String
  distributions : List (String × String)
  outliers : List String
  deriving Repr, DecidableEq

/-- Insight severity. -/
inductive Severity where
  | info
  | warning
  | success
  deriving Repr, DecidableEq

/-- One entry of the insights sequence. -/
structure Insight where
  title : String
  description : String
  severity : Severity
  deriving Repr, DecidableEq

/-- The decoded external payload. -/
structure Payload where
  summary : Option PayloadSummary
  dataQuality : Option DataQuality
  statistics : Option (List (String × List (String × StatValue)))
  correlations : Option (List Correlation)
  patterns : Option Patterns
  insights : Option (List Insight)
  deriving Repr, DecidableEq

/-- The empty payload object. -/
def emptyPayload : Payload :=
  { summary := none, dataQuality := none, statistics := none
    correlations := none, patterns := none, insights := none }

/-- Summary section of AnalysisResult. -/
structure Summary where
  totalRows : Nat
  totalColumns : Nat
  completenessScore : Rat
  memorySize : String
  deriving Repr, DecidableEq

/-- The AnalysisResult interface of page.tsx. -/
structure AnalysisResult where
  summary : Summary
  dataQuality : DataQuality
  statistics : List (String × List (String × StatValue))
  correlations : List Correlation
  patterns : Patterns
  insights : List Insight
  deriving Repr, DecidableEq

/-- Round `a / b` to the nearest integer, half away from zero (the tie
rule of ECMA-262 `toFixed`), for positive `b`. -/
def roundHalfUp (a b : Nat) : Nat :=
  (2 * a + b) / (2 * b)

/-- Left-pad a two-digit fraction. -/
def pad2 (n : Nat) : String :=
  if n < 10 then "0" ++ toString n else toString n

/-- The template `${(size / 1024).toFixed(2)} KB` of line 172.
`size / 1024` is exact in an IEEE double for every text length below
`2^53`, so `toFixed(2)` rounds the exact rational to two decimals, half
away from zero. -/
def jsToFixed2KB (size : Nat) : String :=
  let n := roundHalfUp (size * 100) 1024
  toString (n / 100) ++ "." ++ pad2 (n % 100) ++ " KB"

/-- The default rule `(parsedData.summary?.completenessScore || 85)` of
line 171: optional chaining yields undefined when summary is absent, and
the or-default replaces a falsy value (absent, or the number 0) by 85. -/
def completenessRaw (parsedData : Payload) : Rat :=
  match parsedData.summary with
  | none => 85
  | some s =>
    match s.completenessScore with
    | none => 85
    | some x => if x = 0 then 85 else x

/-- The pure core of `analyzeData` (lines 167–187): building analysisData
from the decoded payload and the current fileData. -/
def normalize (parsedData : Payload) (fileData : FileData) : AnalysisResult :=
  { summary :=
      { totalRows := fileData.rows
        totalColumns := fileData.columns
        completenessScore := completenessRaw parsedData / 100
        memorySize := jsToFixed2KB fileData.size }
    dataQuality := parsedData.dataQuality.getD ⟨[], 0, []⟩
    statistics := parsedData.statistics.getD []
    correlations := parsedData.correlations.getD []
    patterns := parsedData.patterns.getD ⟨[], [], []⟩
    insights := parsedData.insights.getD [] }

/-!
The `analyzeData` control flow (lines 151–198).
-/

/-- Shape of `data.response`: a JSON string or an already-decoded object
(absence is modelled at the use site with `Option`). -/
inductive RawPayload where
  | str (s : String)
  | obj (p : Payload)
  deriving Repr, DecidableEq

/-- The JSON body of the agent endpoint response. -/
structure AgentResponse where
  success : Bool
  response : Option RawPayload
  deriving Repr, DecidableEq

/-- Outcome of the awaited fetch and body decode: either a throw (network
failure, non-JSON body) or a decoded body. -/
inductive FetchOutcome where
  | networkError
  | ok (data : AgentResponse)
  deriving Repr, DecidableEq

/-- JS truthiness of `data.response`: undefined and the empty string are
falsy, every object and non-empty string is truthy. -/
def truthyResp : Option RawPayload → Bool
  | none => false
  | some (.str s) => s != ""
  | some (.obj _) => true

/-- The view state touched by `analyzeData`. -/
structure UIState where
  analysis : Option AnalysisResult
  error : Option String
  loading : Bool
  deriving Repr, DecidableEq

/-- Error banner for the catch branch. -/
def analyzeErrorMsg : String := "Error analyzing data. Please try again."

/-- Error banner for a non-success response. -/
def analyzeFailedMsg : String := "Failed to analyze data. Please try again."

/-- One complete `analyzeData` invocation as a state transformer:
`setLoading(true)` and `setError(null)` happen up front, the fetch
outcome is `outcome`, JSON.parse is the abstract `decode` (`none` stands
for a throw, caught by the surrounding catch), and the finally clause
clears the loading flag.  On the success path `error` stays at the null
value set on entry. -/
def analyzeStep (decode : String → Option Payload) (fileData : FileData)
    (st : UIState) (outcome : FetchOutcome) : UIState :=
  match outcome with
  | .networkError => { st with error := some analyzeErrorMsg, loading := false }
  | .ok data =>
    if data.success && truthyResp data.response then
      match data.response with
      | some (.obj p) =>
          { st with analysis := some (normalize p fileData), error := none, loading := false }
      | some (.str s) =>
          match decode s with
          | some p =>
              { st with analysis := some (normalize p fileData), error := none, loading := false }
          | none => { st with error := some analyzeErrorMsg, loading := false }
      | none => { st with error := some analyzeFailedMsg, loading := false }
    else
      { st with error := some analyzeFailedMsg, loading := false }

/-- The invocation fails: thrown fetch or body-decode error, non-success
flag, falsy response, or JSON.parse failure on a string payload. -/
def invocationFails (decode : String → Option Payload) : FetchOutcome → Prop
  | .networkError => True
  | .ok data =>
      ¬(data.success = true ∧ truthyResp data.response = true)
      ∨ ∃ s, data.response = some (.str s) ∧ decode s = none

/-- A small concrete dataset used by witnesses. -/
def sampleFile : FileData := parseCSV "a,b\n1,2" "t.csv"

/-- Payload whose nested completeness score is present and equal to 0. -/
def payloadScore0 : Payload :=
  { emptyPayload with summary := some ⟨none, none, some 0⟩ }

/-- Payload with a nonzero completeness score and conflicting totals. -/
def payloadScore42 : Payload :=
  { emptyPayload with summary := some ⟨some 999, some 999, some 42⟩ }

end DataLens

/-!
The second page variant (src/unnamed/part_000).  Its `parseCSV` (lines
91–110) and the analysisData construction inside its `analyzeData` (lines
182–202) are transcribed independently below; the interface types and the
host primitives (trim, split, object assignment, `toFixed`) are the shared
models from above.
-/

namespace Variant2

open DataLens (jsTrim jsSplit objSet FileData Payload AnalysisResult
  roundHalfUp pad2)

/-- The reduce loop of the second variant (lines 96–99). -/
def buildRowAux (obj : List (String × String)) :
    List String → List String → Nat → List (String × String)
  | [], _, _ => obj
  | h :: hs, values, idx => buildRowAux (objSet obj h (values.getD idx "")) hs values (idx + 1)

/-- Row mapping for one data line of the second variant. -/
def buildRow (headers values : List String) : List (String × String) :=
  buildRowAux [] headers values 0

/-- Comma split with per-cell trim, in the second variant. -/
def splitComma (line : String) : List String :=
  (jsSplit ',' line).map jsTrim

/-- One data line to row mapping in the second variant. -/
def parseLine (headers : List String) (line : String) : List (String × String) :=
  buildRow headers (splitComma line)

/-- Trim-then-split line list of the second variant (line 92). -/
def linesOf (text : String) : List String :=
  jsSplit '\n' (jsTrim text)

/-- Embedding of `parseCSV` from src/unnamed/part_000 (lines 91–110). -/
def parseCSV (text fileName : String) : FileData :=
  let lines := linesOf text
  let headers := splitComma (lines.getD 0 "")
  let data := (lines.drop 1).map (parseLine headers)
  { name := fileName
    size := text.length
    rows := data.length
    columns := headers.length
    headers := headers
    preview := data.take 10 }

/-- Memory size template of the second variant (line 187). -/
def jsToFixed2KB (size : Nat) : String :=
  let n := roundHalfUp (size * 100) 1024
  toString (n / 100) ++ "." ++ pad2 (n % 100) ++ " KB"

/-- Completeness default rule of the second variant (line 186). -/
def completenessRaw (parsedData : Payload) : Rat :=
  match parsedData.summary with
  | none => 85
  | some s =>
    match s.completenessScore with
    | none => 85
    | some x => if x = 0 then 85 else x

/-- Construction of analysisData in the second variant (lines 182–202). -/
def normalize (parsedData : Payload) (fileData : FileData) : AnalysisResult :=
  { summary :=
      { totalRows := fileData.rows
        totalColumns := fileData.columns
        completenessScore := completenessRaw parsedData / 100
        memorySize := jsToFixed2KB fileData.size }
    dataQuality := parsedData.dataQuality.getD ⟨[], 0, []⟩
    statistics := parsedData.statistics.getD []
    correlations := parsedData.correlations.getD []
    patterns := parsedData.patterns.getD ⟨[], [], []⟩
    insights := parsedData.insights.getD [] }

end Variant2

/-!
Auxiliary lemmas about the host-primitive models.
-/

namespace DataLens

/-- Split never returns the empty list. -/
theorem splitOnChar_ne_nil (sep : Char) (l : List Char) : splitOnChar sep l ≠ [] := by
  cases l with
  | nil => simp [splitOnChar]
  | cons c cs =>
    simp only [splitOnChar]
    split
    · simp
    · split
      · simp
      · simp

/-- Split yields one more piece than there are separators. -/
theorem length_splitOnChar (sep : Char) (l : List Char) :
    (splitOnChar sep l).length = l.count sep + 1 := by
  induction l with
  | nil => simp [splitOnChar]
  | cons c cs ih =>
    by_cases h : c = sep
    · subst h
      simp [splitOnChar, List.count_cons, ih]
    · cases hs : splitOnChar sep cs with
      | nil => exact absurd hs (splitOnChar_ne_nil _ _)
      | cons a t =>
        rw [hs] at ih
        simp only [List.length_cons] at ih
        simp [splitOnChar, h, hs, List.count_cons]
        omega

/-- Lookup on a cons cell. -/
theorem objGet_cons (p : String × String) (rest : List (String × String)) (k : String) :
    objGet (p :: rest) k = if p.1 = k then some p.2 else objGet rest k := by
  rcases eq_or_ne p.1 k with h | h
  · simp [objGet, List.find?_cons_of_pos, h]
  · simp [objGet, List.find?_cons_of_neg, h]

/-- Lookup after assignment: the assigned key reads the new value, every
other key is untouched. -/
theorem objGet_objSet (obj : List (String × String)) (k v k' : String) :
    objGet (objSet obj k v) k' = if k' = k then some v else objGet obj k' := by
  induction obj with
  | nil =>
    simp [objSet, objGet_cons, eq_comm]
  | cons p rest ih =>
    by_cases hp : p.1 = k
    · simp only [objSet, if_pos hp, objGet_cons]
      rcases eq_or_ne k' k with h | h
      · simp [h]
      · simp [h, Ne.symm h, hp, fun hh : p.1 = k' => h (hh ▸ hp ▸ rfl)]
    · simp only [objSet, if_neg hp, objGet_cons, ih]
      rcases eq_or_ne k' k with h | h
      · subst h
        have hp' : p.1 ≠ k' := hp
        simp [hp']
      · simp [h]

/-- Lookup in a partially built row: the last assignment to a key wins,
keys never assigned fall through to the accumulator. -/
theorem objGet_buildRowAux (values : List String) (k : String) :
    ∀ (hs : List String) (obj : List (String × String)) (idx : Nat),
      objGet (buildRowAux obj hs values idx) k =
        match lastIdxOf k hs with
        | some j => some (values.getD (idx + j) "")
        | none => objGet obj k := by
  intro hs
  induction hs with
  | nil => intro obj idx; simp [buildRowAux, lastIdxOf]
  | cons h t ih =>
    intro obj idx
    simp only [buildRowAux, lastIdxOf]
    rw [ih]
    cases hlast : lastIdxOf k t with
    | some j =>
      simp only
      congr 2
      omega
    | none =>
      simp only [objGet_objSet]
      by_cases hk : h = k
      · simp [hk]
      · simp [hk, Ne.symm hk]

/-- Lookup in a finished row is the cell at the last occurrence of the
key among the headers. -/
theorem objGet_buildRow (headers values : List String) (k : String) :
    objGet (buildRow headers values) k =
      (lastIdxOf k headers).map (fun j => values.getD j "") := by
  rw [buildRow, objGet_buildRowAux]
  cases lastIdxOf k headers <;> simp [objGet]

/-- Absence of a last occurrence is absence from the list. -/
theorem lastIdxOf_eq_none_iff (k : String) (hs : List String) :
    lastIdxOf k hs = none ↔ k ∉ hs := by
  induction hs with
  | nil => simp [lastIdxOf]
  | cons h t ih =>
    simp only [lastIdxOf, List.mem_cons]
    cases hlast : lastIdxOf k t with
    | some j =>
      simp only
      constructor
      · intro hc; exact absurd hc (by simp)
      · intro hc
        exact absurd (ih.mpr (fun hm => hc (Or.inr hm))) (by simp [hlast])
    | none =>
      rw [hlast] at ih
      by_cases hk : h = k
      · simp [hk]
      · simp [hk, Ne.symm hk, ih.mp rfl]

/-- The index returned by `lastIdxOf` carries the key and dominates every
other occurrence. -/
theorem lastIdxOf_spec (k : String) (hs : List String) (j : Nat)
    (h : lastIdxOf k hs = some j) :
    hs.get? j = some k ∧ ∀ i, hs.get? i = some k → i ≤ j := by
  induction hs generalizing j with
  | nil => simp [lastIdxOf] at h
  | cons a t ih =>
    simp only [lastIdxOf] at h
    cases hlast : lastIdxOf k t with
    | some j' =>
      rw [hlast] at h
      simp only [Option.some.injEq] at h
      subst h
      obtain ⟨h1, h2⟩ := ih j' hlast
      refine ⟨by simpa using h1, ?_⟩
      intro i hi
      cases i with
      | zero => omega
      | succ i' =>
        simp only [List.get?_cons_succ] at hi
        exact Nat.succ_le_succ (h2 i' hi)
    | none =>
      rw [hlast] at h
      by_cases hk : a = k
      · rw [hk, if_pos rfl] at h
        obtain rfl : (0 : Nat) = j := Option.some.inj h
        refine ⟨by simp [hk], ?_⟩
        intro i hi
        cases i with
        | zero => exact Nat.le_refl 0
        | succ i' =>
          simp only [List.get?_cons_succ] at hi
          exact absurd (List.get?_mem hi) ((lastIdxOf_eq_none_iff k t).mp hlast)
      · simp [hk] at h

/-- On a duplicate-free list the last occurrence of the element at `i` is
`i` itself. -/
theorem lastIdxOf_of_nodup (hs : List String) (hnd : hs.Nodup) (i : Nat)
    (hi : i < hs.length) :
    lastIdxOf (hs.get ⟨i, hi⟩) hs = some i := by
  induction hs generalizing i with
  | nil => simp at hi
  | cons a t ih =>
    cases i with
    | zero =>
      have ha : a ∉ t := (List.nodup_cons.mp hnd).1
      simp only [List.get]
      simp [lastIdxOf, (lastIdxOf_eq_none_iff a t).mpr ha]
    | succ i' =>
      have hi' : i' < t.length := by simpa using hi
      have := ih (List.nodup_cons.mp hnd).2 i' hi'
      simp only [List.get_eq_getElem] at this ⊢
      simp [lastIdxOf, this]

/-- Reading inside the kept prefix ignores the truncation. -/
theorem getD_take (values : List String) (m i : Nat) (h : i < m) :
    (values.take m).getD i "" = values.getD i "" := by
  induction values generalizing m i with
  | nil => simp
  | cons v vs ih =>
    cases m with
    | zero => omega
    | succ m' =>
      cases i with
      | zero => simp
      | succ i' => simpa using ih m' i' (by omega)

/-- The row builder only ever reads the indices it is given headers for. -/
theorem buildRowAux_take (values : List String) :
    ∀ (hs : List String) (obj : List (String × String)) (idx : Nat),
      buildRowAux obj hs (values.take (idx + hs.length)) idx = buildRowAux obj hs values idx := by
  intro hs
  induction hs with
  | nil => intro obj idx; rfl
  | cons h t ih =>
    intro obj idx
    simp only [buildRowAux]
    rw [getD_take values _ idx (by simp)]
    rw [show idx + (h :: t).length = (idx + 1) + t.length by simp [List.length_cons]; omega]
    exact ih (objSet obj h (values.getD idx "")) (idx + 1)

/-- Values beyond the header count never reach the row. -/
theorem buildRow_take (headers values : List String) :
    buildRow headers (values.take headers.length) = buildRow headers values := by
  have := buildRowAux_take values headers [] 0
  simpa [buildRow] using this

/-- Round trip between a string and its character list. -/
theorem asString_data (s : String) : s.data.asString = s := rfl

/-- A separator-free list splits into itself. -/
theorem splitOnChar_of_not_mem (sep : Char) (l : List Char) (h : sep ∉ l) :
    splitOnChar sep l = [l] := by
  induction l with
  | nil => rfl
  | cons c cs ih =>
    have hc : c ≠ sep := fun hc => h (hc ▸ List.mem_cons_self c cs)
    have hcs : sep ∉ cs := fun hm => h (List.mem_cons_of_mem c hm)
    simp [splitOnChar, hc, ih hcs]

/-- Splitting peels off a separator-free prefix. -/
theorem splitOnChar_append (sep : Char) (xs ys : List Char) (h : sep ∉ xs) :
    splitOnChar sep (xs ++ sep :: ys) = xs :: splitOnChar sep ys := by
  induction xs with
  | nil => simp [splitOnChar]
  | cons c cs ih =>
    have hc : c ≠ sep := fun hc => h (hc ▸ List.mem_cons_self c cs)
    have hcs : sep ∉ cs := fun hm => h (List.mem_cons_of_mem c hm)
    simp only [List.cons_append, splitOnChar, if_neg hc]
    rw [show cs.append (sep :: ys) = cs ++ sep :: ys from rfl, ih hcs]

/-- Character list of a joined nonempty tail. -/
theorem joinLines_data_cons (l : String) (ls : List String) (h : ls ≠ []) :
    (joinLines (l :: ls)).data = l.data ++ '\n' :: (joinLines ls).data := by
  cases ls with
  | nil => exact absurd rfl h
  | cons a t =>
    show (l ++ "\n" ++ joinLines (a :: t)).data = _
    simp [String.data_append]

/-- Splitting a newline-join of newline-free lines recovers the lines. -/
theorem splitOnChar_joinLines (lines : List String) (hne : lines ≠ [])
    (hnl : ∀ l ∈ lines, '\n' ∉ l.data) :
    splitOnChar '\n' (joinLines lines).data = lines.map String.data := by
  induction lines with
  | nil => exact absurd rfl hne
  | cons l ls ih =>
    cases ls with
    | nil =>
      show splitOnChar '\n' (joinLines [l]).data = [l.data]
      exact splitOnChar_of_not_mem '\n' l.data (hnl l (List.mem_cons_self l []))
    | cons a t =>
      rw [joinLines_data_cons l (a :: t) (by simp)]
      rw [splitOnChar_append '\n' l.data _ (hnl l (List.mem_cons_self _ _))]
      rw [ih (by simp) (fun x hx => hnl x (List.mem_cons_of_mem l hx))]
      simp

/-- On a trim-stable newline-join of newline-free lines, the ingestion
line list is exactly the given lines. -/
theorem linesOf_joinLines (lines : List String) (hne : lines ≠ [])
    (hnl : ∀ l ∈ lines, '\n' ∉ l.data)
    (htrim : jsTrim (joinLines lines) = joinLines lines) :
    linesOf (joinLines lines) = lines := by
  rw [linesOf, htrim, jsSplit, splitOnChar_joinLines lines hne hnl]
  have hid : (List.asString ∘ String.data) = id := funext fun s => asString_data s
  rw [List.map_map, hid, List.map_id]

/-- The ingestion line list is never empty. -/
theorem linesOf_ne_nil (text : String) : linesOf text ≠ [] := by
  unfold linesOf jsSplit
  intro h
  exact splitOnChar_ne_nil '\n' (jsTrim text).data (List.map_eq_nil_iff.mp h)

/-- The row builders of the two variants agree. -/
theorem variant2_buildRowAux_eq (hs : List String) :
    ∀ (obj : List (String × String)) (values : List String) (idx : Nat),
      Variant2.buildRowAux obj hs values idx = buildRowAux obj hs values idx := by
  induction hs with
  | nil => intro obj values idx; rfl
  | cons h t ih =>
    intro obj values idx
    simp only [Variant2.buildRowAux, buildRowAux]
    exact ih _ values (idx + 1)

/-- The per-line parsers of the two variants agree. -/
theorem variant2_parseLine_eq (headers : List String) (line : String) :
    Variant2.parseLine headers line = parseLine headers line := by
  unfold Variant2.parseLine parseLine Variant2.buildRow buildRow
  rw [variant2_buildRowAux_eq]
  rfl

end DataLens

/-!
The claims.
-/

namespace DataLens

/-- C1 (counterexample): the text joining header "h" with the three data
lines "a", "", "" is "h\na\n\n", yet ingestion reports 1 row, not 3 — the
leading trim drops the blank trailing lines, so rowCount does not equal
the number of data lines for every input. -/
theorem claim_C1_counterexample :
    joinLines ["h", "a", "", ""] = "h\na\n\n"
    ∧ (parseCSV (joinLines ["h", "a", "", ""]) "f.csv").rows = 1
    ∧ (parseCSV (joinLines ["h", "a", "", ""]) "f.csv").rows ≠ List.length ["a", "", ""] := by
  refine ⟨by decide, by decide, by decide⟩

/-- C1 (amended): for a text joining a header line and K data lines with
newlines, where no line contains a newline and the text is unchanged by
trimming, ingestion yields rowCount = K and previewRows of length
min(K, 10); and every FileDataset produced by `parseCSV`, on any input,
satisfies previewRows.length = min(rowCount, 10). -/
theorem claim_C1 (header : String) (dataLines : List String) (name : String)
    (hnl : ∀ l ∈ header :: dataLines, '\n' ∉ l.data)
    (htrim : jsTrim (joinLines (header :: dataLines)) = joinLines (header :: dataLines)) :
    (parseCSV (joinLines (header :: dataLines)) name).rows = dataLines.length
    ∧ (parseCSV (joinLines (header :: dataLines)) name).preview.length
        = min dataLines.length 10
    ∧ ∀ text name2, (parseCSV text name2).preview.length
        = min (parseCSV text name2).rows 10 := by
  have hlines := linesOf_joinLines (header :: dataLines) (by simp) hnl htrim
  refine ⟨?_, ?_, ?_⟩
  · simp [parseCSV, hlines]
  · simp [parseCSV, hlines, List.length_take, Nat.min_comm]
  · intro text name2
    simp [parseCSV, List.length_take, Nat.min_comm]

/-- C1 witness: header "h" with data lines "a" and "b". -/
theorem claim_C1_witness :
    (parseCSV (joinLines ["h", "a", "b"]) "w.csv").rows = 2
    ∧ (parseCSV (joinLines ["h", "a", "b"]) "w.csv").preview.length = min 2 10
    ∧ ∀ text name2, (parseCSV text name2).preview.length
        = min (parseCSV text name2).rows 10 :=
  claim_C1 "h" ["a", "b"] "w.csv" (by decide) (by decide)

/-- C2 (counterexample): a payload whose nested completeness value is
present and equal to 0 normalizes to 0.85, not to 0/100 — the JS
or-default treats the present value 0 as falsy. -/
theorem claim_C2_counterexample :
    payloadScore0.summary = some ⟨none, none, some 0⟩
    ∧ (normalize payloadScore0 sampleFile).summary.completenessScore = 85 / 100
    ∧ (normalize payloadScore0 sampleFile).summary.completenessScore ≠ 0 / 100 := by
  refine ⟨rfl, ?_, ?_⟩
  · simp [normalize, completenessRaw, payloadScore0, emptyPayload]
  · simp [normalize, completenessRaw, payloadScore0, emptyPayload]

/-- C2 (amended): the normalized completeness score is the nested payload
value divided by 100 when that value is present and nonzero, and defaults
to 0.85 when the nested value is absent or when it is present but zero
(JS falsiness of the number 0). -/
theorem claim_C2 (p : Payload) (fd : FileData) :
    (∀ s x, p.summary = some s → s.completenessScore = some x → x ≠ 0 →
        (normalize p fd).summary.completenessScore = x / 100)
    ∧ (p.summary = none → (normalize p fd).summary.completenessScore = 85 / 100)
    ∧ (∀ s, p.summary = some s →
        s.completenessScore = none ∨ s.completenessScore = some 0 →
        (normalize p fd).summary.completenessScore = 85 / 100) := by
  refine ⟨?_, ?_, ?_⟩
  · intro s x hs hx hnz
    simp [normalize, completenessRaw, hs, hx, hnz]
  · intro hs
    simp [normalize, completenessRaw, hs]
  · intro s hs hsc
    rcases hsc with h | h <;> simp [normalize, completenessRaw, hs, h]

/-- C2 witness: score 42 divides to 42/100; an absent summary and a zero
score both default to 85/100. -/
theorem claim_C2_witness :
    (normalize payloadScore42 sampleFile).summary.completenessScore = 42 / 100
    ∧ (normalize emptyPayload sampleFile).summary.completenessScore = 85 / 100
    ∧ (normalize payloadScore0 sampleFile).summary.completenessScore = 85 / 100 :=
  ⟨(claim_C2 payloadScore42 sampleFile).1 ⟨some 999, some 999, some 42⟩ 42 rfl rfl
      (by norm_num),
   (claim_C2 emptyPayload sampleFile).2.1 rfl,
   (claim_C2 payloadScore0 sampleFile).2.2 ⟨none, none, some 0⟩ rfl (Or.inr rfl)⟩

/-- C3: the normalized totalRows and totalColumns always mirror the
FileDataset, for every payload; in particular two arbitrary payloads
(e.g. one carrying conflicting totals) produce identical totals, so the
external payload cannot influence these two output fields. -/
theorem claim_C3 (p : Payload) (fd : FileData) :
    ((normalize p fd).summary.totalRows = fd.rows
      ∧ (normalize p fd).summary.totalColumns = fd.columns)
    ∧ ∀ q : Payload,
        (normalize q fd).summary.totalRows = (normalize p fd).summary.totalRows
        ∧ (normalize q fd).summary.totalColumns = (normalize p fd).summary.totalColumns :=
  ⟨⟨rfl, rfl⟩, fun _ => ⟨rfl, rfl⟩⟩

/-- C4: the empty payload normalizes to the all-default result —
completeness 0.85, empty missing-values mapping, zero duplicate rows,
empty issue/correlation/insight/trend/outlier sequences, empty statistics
and distributions mappings — and memorySize comes solely from the
FileDataset size; a 2048-character file renders as "2.00 KB". -/
theorem claim_C4 (fd : FileData) :
    normalize emptyPayload fd =
      { summary :=
          { totalRows := fd.rows
            totalColumns := fd.columns
            completenessScore := 85 / 100
            memorySize := jsToFixed2KB fd.size }
        dataQuality := { missingValues := [], duplicateRows := 0, dataTypeIssues := [] }
        statistics := []
        correlations := []
        patterns := { trends := [], distributions := [], outliers := [] }
        insights := [] }
    ∧ jsToFixed2KB 2048 = "2.00 KB" :=
  ⟨rfl, by decide⟩

/-- C5 (counterexample): the text "h\na\n" has two non-header lines under
naive line splitting ("a" and the blank trailing line), but ingestion
reports rowCount 1 — the leading trim removes the trailing newline before
splitting. -/
theorem claim_C5_counterexample :
    (jsSplit '\n' "h\na\n").length - 1 = 2
    ∧ (parseCSV "h\na\n" "f.csv").rows = 1
    ∧ (parseCSV "h\na\n" "f.csv").rows ≠ (jsSplit '\n' "h\na\n").length - 1 := by
  refine ⟨by decide, by decide, by decide⟩

/-- C5 (amended): rowCount equals the number of non-header lines of the
trimmed text — equivalently the number of newline characters remaining
after trimming.  Interior blank lines are counted (no filtering of
empties), but leading/trailing whitespace, including trailing newlines,
is stripped before splitting. -/
theorem claim_C5 (text name : String) :
    (parseCSV text name).rows = (linesOf text).length - 1
    ∧ (parseCSV text name).rows = (jsTrim text).data.count '\n' := by
  constructor
  · simp [parseCSV]
  · simp [parseCSV, linesOf, jsSplit, length_splitOnChar]

/-- C6: values of a data line are paired positionally with the headers —
the row keys are exactly the headers; with duplicate-free headers the
cell for header i is the i-th trimmed comma-piece of the line, the empty
string when the line has fewer pieces; and pieces beyond the header count
are dropped (truncating the values to the header count builds the same
row). -/
theorem claim_C6 (headers : List String) (line : String) :
    (∀ k, (objGet (parseLine headers line) k).isSome = true ↔ k ∈ headers)
    ∧ (headers.Nodup → ∀ i, i < headers.length →
        objGet (parseLine headers line) (headers.getD i "")
          = some ((splitComma line).getD i ""))
    ∧ (headers.Nodup → ∀ i, i < headers.length → (splitComma line).length ≤ i →
        objGet (parseLine headers line) (headers.getD i "") = some "")
    ∧ parseLine headers line = buildRow headers ((splitComma line).take headers.length) := by
  have hpos : ∀ (hnd : headers.Nodup) (i : Nat), i < headers.length →
      objGet (parseLine headers line) (headers.getD i "")
        = some ((splitComma line).getD i "") := by
    intro hnd i hi
    have hget : headers.getD i "" = headers.get ⟨i, hi⟩ := by
      simp [List.getD, List.getElem?_eq_getElem hi]
    rw [parseLine, objGet_buildRow, hget, lastIdxOf_of_nodup headers hnd i hi]
    rfl
  refine ⟨?_, hpos, ?_, ?_⟩
  · intro k
    rw [parseLine, objGet_buildRow]
    cases h : lastIdxOf k headers with
    | none => simp [(lastIdxOf_eq_none_iff k headers).mp h]
    | some j =>
      have hk : k ∈ headers := by
        by_contra hk
        rw [(lastIdxOf_eq_none_iff k headers).mpr hk] at h
        cases h
      simp [hk]
  · intro hnd i hi hlen
    rw [hpos hnd i hi, List.getD_eq_default _ _ hlen]
  · exact (buildRow_take headers (splitComma line)).symm

/-- C6 witness: headers a, b, c against the two-piece line " 1 , 2 " —
key b is present, and the third column reads as the empty string. -/
theorem claim_C6_witness :
    ((objGet (parseLine ["a", "b", "c"] " 1 , 2 ") "b").isSome = true
      ↔ "b" ∈ ["a", "b", "c"])
    ∧ objGet (parseLine ["a", "b", "c"] " 1 , 2 ") (["a", "b", "c"].getD 2 "") = some "" :=
  ⟨(claim_C6 ["a", "b", "c"] " 1 , 2 ").1 "b",
   (claim_C6 ["a", "b", "c"] " 1 , 2 ").2.1 (by decide) 2 (by decide)⟩

/-- C7: when a header name occurs at several positions, the row mapping
binds it to the value at the last position where it occurs — the index
`j` returned by `lastIdxOf` carries the key and dominates every
occurrence, and the row reads the cell at `j`.  Header uniqueness is
nowhere required. -/
theorem claim_C7 (headers : List String) (line : String) (k : String) (j : Nat)
    (hj : lastIdxOf k headers = some j) :
    (headers.get? j = some k ∧ ∀ i, headers.get? i = some k → i ≤ j)
    ∧ objGet (parseLine headers line) k = some ((splitComma line).getD j "") := by
  refine ⟨lastIdxOf_spec k headers j hj, ?_⟩
  rw [parseLine, objGet_buildRow, hj]
  rfl

/-- C7 witness: duplicate header a at positions 0 and 2 of line
"1,2,3" — the row binds a to "3", the value at the last occurrence. -/
theorem claim_C7_witness :
    objGet (parseLine ["a", "b", "a"] "1,2,3") "a" = some "3" :=
  (claim_C7 ["a", "b", "a"] "1,2,3" "a" 2 (by decide)).2

/-- C8: a failing invocation (network failure, non-success or falsy
response, or decode failure of a string payload) leaves the committed
analysis unchanged and surfaces an error; a new result is committed
exactly by the full-success paths (success flag with an object payload,
or with a non-empty string payload that decodes). -/
theorem claim_C8 (decode : String → Option Payload) (fd : FileData)
    (st : UIState) (outcome : FetchOutcome) :
    (invocationFails decode outcome →
      (analyzeStep decode fd st outcome).analysis = st.analysis
      ∧ (analyzeStep decode fd st outcome).error.isSome = true)
    ∧ (∀ p, outcome = .ok ⟨true, some (.obj p)⟩ →
        (analyzeStep decode fd st outcome).analysis = some (normalize p fd))
    ∧ (∀ s p, s ≠ "" → outcome = .ok ⟨true, some (.str s)⟩ → decode s = some p →
        (analyzeStep decode fd st outcome).analysis = some (normalize p fd)) := by
  refine ⟨?_, ?_, ?_⟩
  · intro hfail
    cases outcome with
    | networkError => simp [analyzeStep]
    | ok data =>
      rcases data with ⟨succ, resp⟩
      by_cases hcond : succ = true ∧ truthyResp resp = true
      · rcases hfail with hfail | ⟨s, hresp, hdec⟩
        · exact absurd hcond hfail
        · subst hresp
          simp [analyzeStep, hcond.1, hcond.2, hdec]
      · have hb : (succ && truthyResp resp) = false := by
          rcases Bool.eq_false_or_eq_true succ with h | h <;>
            rcases Bool.eq_false_or_eq_true (truthyResp resp) with h2 | h2 <;>
              simp [h, h2] at hcond ⊢
        simp [analyzeStep, hb]
  · intro p hp
    subst hp
    simp [analyzeStep, truthyResp]
  · intro s p hs hp hdec
    subst hp
    simp [analyzeStep, truthyResp, hs, hdec]

/-- C8 witness: a network failure keeps the previously committed result;
a success with an object payload commits, as does a success with a
decodable non-empty string payload. -/
theorem claim_C8_witness :
    (analyzeStep (fun _ => none) sampleFile
        ⟨some (normalize emptyPayload sampleFile), none, true⟩ .networkError).analysis
      = some (normalize emptyPayload sampleFile)
    ∧ (analyzeStep (fun _ => none) sampleFile
        ⟨none, none, true⟩ (.ok ⟨true, some (.obj payloadScore42)⟩)).analysis
      = some (normalize payloadScore42 sampleFile)
    ∧ (analyzeStep (fun _ => some emptyPayload) sampleFile
        ⟨none, none, true⟩ (.ok ⟨true, some (.str "x")⟩)).analysis
      = some (normalize emptyPayload sampleFile) :=
  ⟨((claim_C8 (fun _ => none) sampleFile
      ⟨some (normalize emptyPayload sampleFile), none, true⟩ .networkError).1 trivial).1,
   (claim_C8 (fun _ => none) sampleFile ⟨none, none, true⟩
      (.ok ⟨true, some (.obj payloadScore42)⟩)).2.1 payloadScore42 rfl,
   (claim_C8 (fun _ => some emptyPayload) sampleFile ⟨none, none, true⟩
      (.ok ⟨true, some (.str "x")⟩)).2.2 "x" emptyPayload (by decide) rfl rfl⟩

/-- C9: `parseCSV` is total — the checked embedding, whose only fallible
step is the header access on the split result, succeeds on every input,
so the parse-error catch branch is unreachable for text input; and the
empty string yields 0 rows, 1 column, and the single empty-string
header. -/
theorem claim_C9 :
    (∀ text name, parseCSVChecked text name = some (parseCSV text name))
    ∧ ∀ name, (parseCSV "" name).rows = 0
        ∧ (parseCSV "" name).columns = 1
        ∧ (parseCSV "" name).headers = [""] := by
  constructor
  · intro text name
    unfold parseCSVChecked parseCSV
    cases hl : linesOf text with
    | nil => exact absurd hl (linesOf_ne_nil text)
    | cons a t => simp [hl]
  · intro name
    exact ⟨rfl, rfl, rfl⟩

/-- C10: the two page variants implement extensionally equal core logic —
their CSV parsers agree on every text and file name, and their
analysis-result normalizers agree on every payload and FileDataset. -/
theorem claim_C10 :
    (∀ text fileName, DataLens.parseCSV text fileName = Variant2.parseCSV text fileName)
    ∧ ∀ p fd, DataLens.normalize p fd = Variant2.normalize p fd := by
  constructor
  · intro text fileName
    unfold parseCSV Variant2.parseCSV
    have hline : Variant2.parseLine = parseLine := by
      funext headers line
      exact variant2_parseLine_eq headers line
    rw [hline]
    rfl
  · intro p fd
    rfl

end DataLens
